import Mathlib

/-!
Shallow embedding of `src/include/kb_client.hpp` (karabo-bridge C++ client).

Conventions used throughout:
* C++ `std::map<std::string, X>` values are modelled as association lists
  `List (String × X)` with first-match lookup; `std::map::insert` (which never
  overwrites an existing key) is modelled by `insertKV`.  Claims in this
  development only depend on map contents, never on `std::map` iteration order.
* Machine integers are modelled as `Nat` with explicit bounds where overflow
  matters; `unsigned long long` maximum is `maxSize = 2^64 - 1`.
* C++ operations whose behaviour is undefined (integer division by zero,
  reading past the end of a frame, `std::string::erase` past the end,
  `std::stack::top` on an empty stack) are modelled as explicit error values,
  so that reaching them is observable in the embedding.
* Fallible C++ code (exceptions) is modelled with `Except`.
* The msgpack codec is an external collaborator: a ZeroMQ frame is modelled as
  its raw bytes together with the result of decoding it as a msgpack map
  (`none` when the frame does not decode to a map).
* Floating point formatting of the diagnostic visitor delegates to
  `std::stringstream`; the claims under study do not involve floats, so the
  generic-value type omits float leaves (every modelled constructor is
  translated faithfully from the source).
-/

namespace KaraboBridge

/-- Maximum of `unsigned long long` (`std::numeric_limits<unsigned long long>::max()`
on the 64-bit platforms this client targets). -/
def maxSize : Nat := 18446744073709551615

/-- The C++ element types accepted by `check_type_by_string` in
`kb_client.hpp` (the template parameter `T`). -/
inductive CType where
  | u8 | u16 | u32 | u64
  | i8 | i16 | i32 | i64
  | f32 | f64
deriving DecidableEq

/-- `sizeof(T)` for the types of `CType`. -/
def byteSize : CType → Nat
  | .u8 => 1 | .u16 => 2 | .u32 => 4 | .u64 => 8
  | .i8 => 1 | .i16 => 2 | .i32 => 4 | .i64 => 8
  | .f32 => 4 | .f64 => 8

/-- Embedding of `check_type_by_string<T>(type_string)` from
`kb_client.hpp` lines 55-67: the chain of string comparisons paired with
`std::is_same<T, ...>` tests. -/
def check_type_by_string (t : CType) (type_string : String) : Bool :=
  if type_string = "uint64_t" ∧ t = .u64 then true
  else if type_string = "uint32_t" ∧ t = .u32 then true
  else if type_string = "uint16_t" ∧ t = .u16 then true
  else if type_string = "uint8_t" ∧ t = .u8 then true
  else if type_string = "int64_t" ∧ t = .i64 then true
  else if type_string = "int32_t" ∧ t = .i32 then true
  else if type_string = "int16_t" ∧ t = .i16 then true
  else if type_string = "int8_t" ∧ t = .i8 then true
  else if type_string = "float" ∧ t = .f32 then true
  else decide (type_string = "double" ∧ t = .f64)

/-- Outcomes of the element-count loop of `Array::size` (lines 105-116).
`overflow` is the `std::overflow_error("Unmanageable array size!")` throw;
`divByZero` marks the undefined behaviour of `max_size/size` when the
running product `size` has become zero. -/
inductive SizeErr where
  | overflow
  | divByZero
deriving DecidableEq

/-- The loop body of `Array::size`: starting from the running product `size`
(initially 1), for each dimension `v` it evaluates `max_size/size < v`
(throwing on overflow) and then multiplies.  The C++ division is undefined
when `size = 0`; the model reports that case as `divByZero`. -/
def sizeLoop : Nat → List Nat → Except SizeErr Nat
  | size, [] => .ok size
  | size, v :: rest =>
    if size = 0 then .error .divByZero
    else if maxSize / size < v then .error .overflow
    else sizeLoop (size * v) rest

/-- Embedding of the `Array` class of `kb_client.hpp` (lines 100-143): a
pointer to the data chunk (modelled as the frame's bytes), the shape and the
dtype string. -/
structure KArray where
  data : List Nat
  shape : List Nat
  dtype : String

/-- `Array::size()` (lines 105-116). -/
def KArray.size (a : KArray) : Except SizeErr Nat :=
  sizeLoop 1 a.shape

/-- Outcomes of `Array::as<T>` (lines 132-138): `typeMismatch` is the
`std::bad_cast` thrown when `check_type_by_string` fails; `sizeOverflow` and
`divByZero` propagate from `size()`; `outOfBounds` marks the undefined
behaviour of reading `size()` elements from a frame that is too short. -/
inductive AsErr where
  | typeMismatch
  | sizeOverflow
  | divByZero
  | outOfBounds
deriving DecidableEq

/-- Little-endian value of a byte list (the reinterpretation a
`reinterpret_cast<const T*>` read performs on the little-endian platforms
this client targets).  Signed and floating types are represented by their
bit patterns. -/
def leVal : List Nat → Nat
  | [] => 0
  | b :: rest => b + 256 * leVal rest

/-- Reading `n` consecutive `w`-byte elements starting at the data pointer:
the copy performed by `std::vector<T>(ptr, ptr + size())`. -/
def readVals (data : List Nat) (w : Nat) : Nat → List Nat
  | 0 => []
  | n + 1 => leVal (data.take w) :: readVals (data.drop w) w n

/-- Embedding of `Array::as<T>()` (lines 132-138): first
`check_type_by_string<T>(dtype_)` (throwing `std::bad_cast` on mismatch),
then `size()` (which may throw the overflow error or hit the division by
zero), then the copy-out of `size()` elements of width `sizeof(T)`;
reading past the received frame is undefined behaviour, reported as
`outOfBounds`. -/
def KArray.asVals (a : KArray) (t : CType) : Except AsErr (List Nat) :=
  if check_type_by_string t a.dtype then
    match a.size with
    | .error .overflow => .error .sizeOverflow
    | .error .divByZero => .error .divByZero
    | .ok n =>
      if a.data.length < n * byteSize t then .error .outOfBounds
      else .ok (readVals a.data (byteSize t) n)
  else .error .typeMismatch

/-- Index-wise statement of "reinterpreting the frame bytes as `T`": element
`i` of the result is the little-endian value of bytes
`[i*w, (i+1)*w)` of the frame. -/
def reinterpretBytes (data : List Nat) (w n : Nat) : List Nat :=
  (List.range n).map fun i => leVal ((data.drop (i * w)).take w)

theorem readVals_eq_reinterpretBytes (w : Nat) :
    ∀ (n : Nat) (data : List Nat), readVals data w n = reinterpretBytes data w n := by
  intro n
  induction n with
  | zero => intro data; simp [readVals, reinterpretBytes]
  | succ m ih =>
    intro data
    simp only [readVals, reinterpretBytes, List.range_succ_eq_map, List.map_cons,
      Nat.zero_mul, List.drop_zero, List.map_map]
    refine congrArg₂ _ rfl ?_
    have h := ih (data.drop w)
    simp only [reinterpretBytes] at h
    rw [h]
    refine List.map_congr_left fun i _ => ?_
    simp [Function.comp, List.drop_drop, Nat.succ_mul, Nat.add_comm]

theorem sizeLoop_ok (shape : List Nat) :
    ∀ acc : Nat, 0 < acc →
    (∀ k, k ≤ shape.length → acc * (shape.take k).prod ≤ maxSize) →
    (∀ k, k < shape.length → acc * (shape.take k).prod ≠ 0) →
    sizeLoop acc shape = .ok (acc * shape.prod) := by
  induction shape with
  | nil => intro acc hpos _ _; simp [sizeLoop]
  | cons v rest ih =>
    intro acc hpos hmax hnz
    have hacc0 : ¬ acc = 0 := Nat.pos_iff_ne_zero.mp hpos
    have hav : acc * v ≤ maxSize := by
      have := hmax 1 (by simp)
      simpa using this
    have hguard : ¬ maxSize / acc < v := by
      have hv : v * acc ≤ maxSize := by rw [Nat.mul_comm]; exact hav
      have : v ≤ maxSize / acc := (Nat.le_div_iff_mul_le hpos).mpr hv
      omega
    rw [sizeLoop, if_neg hacc0, if_neg hguard]
    rcases Nat.eq_or_lt_of_le (Nat.zero_le (acc * v)) with hz | hpos'
    · -- `acc * v = 0` is only possible when `rest = []` (else the next
      -- prefix-product hypothesis is violated)
      cases rest with
      | nil => simp [sizeLoop, ← hz, List.prod_cons, Nat.mul_assoc]
      | cons w t =>
        exfalso
        exact hnz 1 (by simp) (by simpa using hz.symm)
    · have := ih (acc * v) hpos'
        (fun k hk => by
          have := hmax (k + 1) (by simpa using Nat.succ_le_succ hk)
          simpa [List.take_succ_cons, List.prod_cons, Nat.mul_assoc] using this)
        (fun k hk => by
          have := hnz (k + 1) (by simpa using Nat.succ_lt_succ hk)
          simpa [List.take_succ_cons, List.prod_cons, Nat.mul_assoc] using this)
      rw [this, List.prod_cons, Nat.mul_assoc]

theorem sizeLoop_overflow (shape : List Nat) :
    ∀ acc : Nat, 0 < acc → acc ≤ maxSize → maxSize < acc * shape.prod →
    sizeLoop acc shape = .error .overflow := by
  induction shape with
  | nil =>
    intro acc _ hle hgt
    simp only [List.prod_nil, Nat.mul_one] at hgt
    omega
  | cons v rest ih =>
    intro acc hpos hle hgt
    have hacc0 : ¬ acc = 0 := Nat.pos_iff_ne_zero.mp hpos
    rw [sizeLoop, if_neg hacc0]
    by_cases hguard : maxSize / acc < v
    · rw [if_pos hguard]
    · rw [if_neg hguard]
      have hav : acc * v ≤ maxSize := by
        have hle' : v ≤ maxSize / acc := by omega
        have := (Nat.le_div_iff_mul_le hpos).mp hle'
        rw [Nat.mul_comm] at this
        exact this
      have hv0 : 0 < v := by
        rcases Nat.eq_zero_or_pos v with h0 | h; · subst h0; simp [List.prod_cons] at hgt
        · exact h
      exact ih (acc * v) (Nat.mul_pos hpos hv0) hav
        (by simpa [List.prod_cons, Nat.mul_assoc] using hgt)

theorem sizeLoop_ok_no_middle_zero (shape : List Nat) :
    ∀ acc n : Nat, sizeLoop acc shape = .ok n →
    ∀ i, i + 1 < shape.length → shape.getD i 1 ≠ 0 := by
  induction shape with
  | nil => intro acc n _ i hi; simp at hi
  | cons v rest ih =>
    intro acc n hok i hi
    rw [sizeLoop] at hok
    by_cases hacc0 : acc = 0
    · rw [if_pos hacc0] at hok; exact absurd hok (by simp)
    · rw [if_neg hacc0] at hok
      by_cases hguard : maxSize / acc < v
      · rw [if_pos hguard] at hok; exact absurd hok (by simp)
      · rw [if_neg hguard] at hok
        cases i with
        | zero =>
          simp only [List.getD_cons_zero]
          intro hv0
          subst hv0
          simp only [List.length_cons] at hi
          cases rest with
          | nil => simp at hi
          | cons w t =>
            rw [sizeLoop, if_pos (by simp)] at hok
            exact absurd hok (by simp)
        | succ j =>
          simp only [List.getD_cons_succ]
          exact ih (acc * v) n hok j (by simpa using Nat.lt_of_succ_lt_succ hi)

/-- Generic decoded msgpack objects as far as `Client::next` inspects them:
strings (`as<std::string>`), arrays of unsigned integers
(`as<std::vector<unsigned int>>`, used for `shape`), nested maps, and
arbitrary other objects (held untouched behind the deferred-unpack `Object`
wrapper), distinguished by an opaque tag. -/
inductive MVal where
  | vstr (s : String)
  | vnats (l : List Nat)
  | vmap (m : List (String × MVal))
  | vother (tag : Nat)

/-- One ZeroMQ frame: its raw bytes, together with the result of
`msgpack::unpack(...).get().as<MsgObjectMap>()` on those bytes (`none` when
the frame does not decode to a msgpack map — a parse error or a
`std::bad_cast`).  The msgpack codec itself is an external collaborator. -/
structure Msg where
  bytes : List Nat
  decoded : Option (List (String × MVal))

/-- Embedding of `kb_data` (lines 295-329): the retained frames (`mpmsg_`,
kept only for lifetime/size accounting), the `msgpack_data` map and the
`array` map.  The `msgpack::object_handle` member only manages lifetime and
has no value-level content. -/
structure KbData where
  msgs : List (List Nat)
  msgpack_data : List (String × MVal)
  array : List (String × KArray)

/-- `kb_data::append_msg`. -/
def appendMsg (kb : KbData) (m : List Nat) : KbData :=
  ⟨kb.msgs ++ [m], kb.msgpack_data, kb.array⟩

/-- A default-constructed `kb_data`. -/
def emptyKb : KbData := ⟨[], [], []⟩

/-- `std::map::insert`: inserts only when the key is absent, never
overwrites.  (`std::map` iterates in key order; the model keeps insertion
order, which leaves the map contents unchanged.) -/
def insertKV {α : Type} (m : List (String × α)) (k : String) (v : α) :
    List (String × α) :=
  match m.lookup k with
  | some _ => m
  | none => m ++ [(k, v)]

/-- Inserting every entry of a decoded map, in order, with
`std::map::insert` semantics (the loop at lines 456-457). -/
def insertAll {α : Type} (m : List (String × α)) (d : List (String × α)) :
    List (String × α) :=
  d.foldl (fun acc kv => insertKV acc kv.1 kv.2) m

/-- `std::string::find(needle) != npos` on character lists. -/
def hasSubstr (needle : List Char) : List Char → Bool
  | [] => needle.isEmpty
  | c :: t => needle.isPrefixOf (c :: t) || hasSubstr needle t

/-- The dtype adjustment at line 468 of `Client::next`:
`if (dtype.find("int") != std::string::npos) dtype.append("_t");`. -/
def normalizeDtype (dtype : String) : String :=
  if hasSubstr "int".data dtype.data then dtype ++ "_t" else dtype

/-- Failures of `Client::next` (all thrown as exceptions in the source):
odd part count (`runtime_error`, lines 426-428), msgpack parse failure or
`bad_cast` when a frame is not a map (`unpackFailed`), `std::out_of_range`
from `map::at` on a missing header field (`missingField`), `bad_cast` when a
header field has the wrong type (`badCast`), and the
`runtime_error("Unknown data content: ...")` at line 474. -/
inductive NextErr where
  | oddLength
  | unpackFailed
  | missingField
  | badCast
  | unknownContent
deriving DecidableEq

/-- `header_unpacked.at(k).as<std::string>()`. -/
def getStr (hdr : List (String × MVal)) (k : String) : Except NextErr String :=
  match hdr.lookup k with
  | none => .error .missingField
  | some (.vstr s) => .ok s
  | some _ => .error .badCast

/-- `header_unpacked.at(k).as<std::vector<unsigned int>>()`. -/
def getNats (hdr : List (String × MVal)) (k : String) : Except NextErr (List Nat) :=
  match hdr.lookup k with
  | none => .error .missingField
  | some (.vnats l) => .ok l
  | some _ => .error .badCast

/-- `msgpack::unpack(...).get().as<MsgObjectMap>()` on one frame. -/
def unpackMap (m : Msg) : Except NextErr (List (String × MVal)) :=
  match m.decoded with
  | some d => .ok d
  | none => .error .unpackFailed

/-- The while-loop of `Client::next` (lines 434-481), walking the frames two
at a time.  State: the `data_pkg` accumulator, the `kb_data` being built,
the `source` variable (a default-constructed `std::string`, hence initially
empty) and the `is_initialized` flag.  When the loop ends, line 483 inserts
the current `kb_data` under the last observed source.  A moved-from
`std::map`/`std::vector` is modelled as emptied (the behaviour of the
mainstream standard libraries the source relies on). -/
def nextLoop : List (String × KbData) → KbData → String → Bool → List Msg →
    Except NextErr (List (String × KbData))
  | pkg, kbdt, source, _, [] => .ok (insertKV pkg source kbdt)
  | _, _, _, _, [_] => .error .oddLength
  | pkg, kbdt, source, is_initialized, hmsg :: dmsg :: rest =>
    match unpackMap hmsg with
    | .error e => .error e
    | .ok header_unpacked =>
      match getStr header_unpacked "content" with
      | .error e => .error e
      | .ok content =>
        if content = "msgpack" then
          -- lines 444-447: on the first msgpack pair only set the flag,
          -- afterwards flush the current kb_data under the previous source
          let pkg' := if is_initialized then insertKV pkg source kbdt else pkg
          let kb0 := if is_initialized then emptyKb else kbdt
          let kb1 := appendMsg kb0 hmsg.bytes
          match unpackMap dmsg with
          | .error e => .error e
          | .ok data_unpacked =>
            let kb2 : KbData :=
              ⟨kb1.msgs, insertAll kb1.msgpack_data data_unpacked, kb1.array⟩
            match getStr header_unpacked "source" with
            | .error e => .error e
            | .ok src => nextLoop pkg' (appendMsg kb2 dmsg.bytes) src true rest
        else if content = "array" ∨ content = "ImageData" then
          -- lines 461-472: both contents are handled by the same branch
          let kb1 := appendMsg kbdt hmsg.bytes
          match getNats header_unpacked "shape" with
          | .error e => .error e
          | .ok shape =>
            match getStr header_unpacked "dtype" with
            | .error e => .error e
            | .ok dtype =>
              match getStr header_unpacked "path" with
              | .error e => .error e
              | .ok path =>
                let kb2 : KbData :=
                  ⟨kb1.msgs, kb1.msgpack_data,
                    insertKV kb1.array path ⟨dmsg.bytes, shape, normalizeDtype dtype⟩⟩
                match getStr header_unpacked "source" with
                | .error e => .error e
                | .ok src =>
                  nextLoop pkg (appendMsg kb2 dmsg.bytes) src is_initialized rest
        else .error .unknownContent

/-- Embedding of `Client::next` (lines 420-486), with the transport receive
abstracted into the frame list argument. -/
def next (mpmsg : List Msg) : Except NextErr (List (String × KbData)) :=
  if mpmsg.isEmpty then .ok []
  else if mpmsg.length % 2 = 1 then .error .oddLength
  else nextLoop [] emptyKb "" false mpmsg

mutual
/-- A decoded generic msgpack value as traversed by `karabo_visitor`
(lines 172-285).  String and binary payloads are carried as character lists
(`visit_str`/`visit_bin` receive a raw `(const char*, size)` pair).
`vext` is the extension type, which `visit_ext` renders as nothing.
Float leaves are omitted (their formatting delegates to
`std::stringstream`, an external collaborator, and no claim involves
them). -/
inductive GV where
  | vnil
  | vbool (b : Bool)
  | vuint (n : Nat)
  | vint (n : Int)
  | vstr (s : List Char)
  | vbin (s : List Char)
  | vext
  | varr (l : GVs)
  | vmap (l : GVKVs)

/-- A list of generic values (the items of a msgpack array). -/
inductive GVs where
  | nil
  | cons (hd : GV) (tl : GVs)

/-- A list of key-value pairs of generic values (the entries of a msgpack
map; msgpack keys are arbitrary objects). -/
inductive GVKVs where
  | nil
  | cons (k : GV) (v : GV) (tl : GVKVs)
end

/-- Failures of the visitor traversal: `eraseOnEmpty` is the
`std::out_of_range` of `m_s.erase(m_s.size() - 1, 1)` when `m_s` is empty
(the index wraps around), `emptyStack` marks the undefined behaviour of
`tracker_.top()`/`tracker_.pop()` on an empty `std::stack`. -/
inductive RErr where
  | eraseOnEmpty
  | emptyStack
deriving DecidableEq

/-- The mutable state of `karabo_visitor`: the output string `m_s`
(as characters), the `tracker_` stack, the `level_` counter and the
`is_key_` flag.  `level_` is a `uint16_t`; the traversal of a value keeps
it balanced, so no wraparound is reachable and it is modelled as `Nat`. -/
structure VSt where
  s : List Char
  tracker : List Nat
  level : Nat
  isKey : Bool

/-- `m_s += x`. -/
def emit (st : VSt) (x : List Char) : VSt :=
  ⟨st.s ++ x, st.tracker, st.level, st.isKey⟩

/-- `is_key_ = b`. -/
def setKey (st : VSt) (b : Bool) : VSt :=
  ⟨st.s, st.tracker, st.level, b⟩

/-- `m_s.erase(m_s.size() - 1, 1)`: drop the last character; on an empty
string the start index wraps and `std::string::erase` throws
`std::out_of_range`. -/
def eraseLast (st : VSt) : Except RErr VSt :=
  match st.s with
  | [] => .error .eraseOnEmpty
  | _ :: _ => .ok ⟨st.s.dropLast, st.tracker, st.level, st.isKey⟩

/-- The indentation loop of `start_map_key`:
`for (int i=0; i< tracker_.top(); ++i) m_s += "    ";`. -/
def indentChars : Nat → List Char
  | 0 => []
  | n + 1 => indentChars n ++ [' ', ' ', ' ', ' ']

mutual
/-- The traversal `msgpack::parse` performs over one value with
`karabo_visitor`: each case appends exactly what the corresponding
`visit_*` / `start_*` / `end_*` callback appends (lines 179-269). -/
def visitV : VSt → GV → Except RErr VSt
  | st, .vnil => .ok (emit st ['n', 'u', 'l', 'l'])
  | st, .vbool b =>
    .ok (emit st (if b then ['t', 'r', 'u', 'e'] else ['f', 'a', 'l', 's', 'e']))
  | st, .vuint n => .ok (emit st (Nat.repr n).data)
  | st, .vint n => .ok (emit st (Int.repr n).data)
  | st, .vstr s => .ok (emit st ('"' :: s ++ ['"']))
  | st, .vbin s => .ok (emit st (if st.isKey then s else ['(', 'b', 'i', 'n', ')']))
  | st, .vext => .ok st
  | st, .varr l =>
    match visitArr (emit st ['[']) l with
    | .error e => .error e
    | .ok st2 =>
      match eraseLast st2 with
      | .error e => .error e
      | .ok st3 => .ok (emit st3 [']'])
  | st, .vmap l =>
    -- start_map: tracker_.push(level_++)
    match visitMap ⟨st.s, st.level :: st.tracker, st.level + 1, st.isKey⟩ l with
    | .error e => .error e
    | .ok st2 =>
      -- end_map: erase last char, pop, --level_
      match eraseLast st2 with
      | .error e => .error e
      | .ok st3 =>
        match st3.tracker with
        | [] => .error .emptyStack
        | _ :: tr => .ok ⟨st3.s, tr, st3.level - 1, st3.isKey⟩

/-- Array items: `start_array_item` (no output), the item itself, then
`end_array_item` (`m_s += ","`). -/
def visitArr : VSt → GVs → Except RErr VSt
  | st, .nil => .ok st
  | st, .cons a t =>
    match visitV st a with
    | .error e => .error e
    | .ok st1 => visitArr (emit st1 [',']) t

/-- Map entries: `start_map_key` (set `is_key_`, newline, indentation by
`tracker_.top()`), the key, `end_map_key` (`": "`, clear `is_key_`),
`start_map_value` (no output), the value, `end_map_value` (`","`). -/
def visitMap : VSt → GVKVs → Except RErr VSt
  | st, .nil => .ok st
  | st, .cons k v t =>
    match st.tracker with
    | [] => .error .emptyStack
    | top :: _ =>
      match visitV (emit (setKey st true) ('\n' :: indentChars top)) k with
      | .error e => .error e
      | .ok st2 =>
        match visitV (setKey (emit st2 [':', ' ']) false) v with
        | .error e => .error e
        | .ok st4 => visitMap (emit st4 [',']) t
end

/-- The rendering the Structure Printer produces for one decoded value: the
visitor run from a fresh state, as done by `parseMsg` (lines 334-343).
(`parseMsg` additionally appends a final newline from the visitor's
destructor; the claims concern the rendering of the value itself.) -/
def render (v : GV) : Except RErr (List Char) :=
  match visitV ⟨[], [], 0, false⟩ v with
  | .error e => .error e
  | .ok st => .ok st.s

/-! ## Helper lemmas -/

theorem asVals_ok_of_wf (a : KArray) (t : CType)
    (hty : check_type_by_string t a.dtype = true)
    (hmax : ∀ k, k ≤ a.shape.length → (a.shape.take k).prod ≤ maxSize)
    (hnz : ∀ k, k < a.shape.length → (a.shape.take k).prod ≠ 0)
    (hlen : a.data.length = a.shape.prod * byteSize t) :
    a.asVals t = .ok (reinterpretBytes a.data (byteSize t) a.shape.prod) := by
  have hsz : a.size = .ok a.shape.prod := by
    have := sizeLoop_ok a.shape 1 Nat.one_pos
      (fun k hk => by simpa using hmax k hk)
      (fun k hk => by simpa using hnz k hk)
    simpa [KArray.size] using this
  rw [KArray.asVals, if_pos hty, hsz]
  dsimp only
  rw [if_neg (by omega), readVals_eq_reinterpretBytes]

theorem lookup_append_right {α : Type} (l₁ l₂ : List (String × α)) (k : String)
    (h : l₁.lookup k = none) : (l₁ ++ l₂).lookup k = l₂.lookup k := by
  induction l₁ with
  | nil => simp
  | cons p t ih =>
    rw [List.lookup] at h
    rcases hbe : (k == p.1) with _ | _
    · rw [hbe] at h
      simpa [List.lookup, hbe] using ih h
    · rw [hbe] at h; exact absurd h (by simp)

theorem insertAll_of_fresh {α : Type} :
    ∀ (d acc : List (String × α)),
    (∀ p ∈ d, acc.lookup p.1 = none) → (d.map Prod.fst).Nodup →
    insertAll acc d = acc ++ d := by
  intro d
  induction d with
  | nil => intro acc _ _; simp [insertAll]
  | cons p t ih =>
    intro acc hfresh hnd
    have hp : acc.lookup p.1 = none := hfresh p (by simp)
    have step : insertKV acc p.1 p.2 = acc ++ [p] := by
      rw [insertKV, hp]
    have hfresh' : ∀ q ∈ t, (acc ++ [p]).lookup q.1 = none := by
      intro q hq
      rw [lookup_append_right _ _ _ (hfresh q (by simp [hq]))]
      have hne : q.1 ≠ p.1 := by
        simp only [List.map_cons, List.nodup_cons] at hnd
        intro he
        exact hnd.1 (he ▸ List.mem_map_of_mem Prod.fst hq)
      have hbe : (q.1 == p.1) = false := beq_eq_false_iff_ne.mpr hne
      simp [List.lookup, hbe]
    have hnd' : (t.map Prod.fst).Nodup := by
      simp only [List.map_cons, List.nodup_cons] at hnd
      exact hnd.2
    calc insertAll acc (p :: t)
        = insertAll (insertKV acc p.1 p.2) t := by
          simp [insertAll, List.foldl_cons]
      _ = (acc ++ [p]) ++ t := by rw [step]; exact ih _ hfresh' hnd'
      _ = acc ++ p :: t := by simp

theorem insertAll_nil_of_nodup {α : Type} (d : List (String × α))
    (hnd : (d.map Prod.fst).Nodup) : insertAll [] d = d := by
  simpa using insertAll_of_fresh d [] (by simp) hnd

/-! ## Claims about the Array view (C5, C6, C7, C10) -/

/-- C5: for an array header with shape `[d0,d1,...]` and a data frame of
exactly `(d0*d1*...)*sizeof(dtype)` bytes, `Array::as<T>` with `T` matching
the stored dtype returns a newly owned sequence of `d0*d1*...` elements
equal to reinterpreting the frame bytes as `T` (little-endian).  The
well-formedness hypotheses say the platform guards of `Array::size` pass:
every prefix product stays representable and no prefix product is zero
(see C10 for the division-by-zero quirk these exclude). -/
theorem c5_as_reinterprets_frame (a : KArray) (t : CType)
    (hty : check_type_by_string t a.dtype = true)
    (hmax : ∀ k, k ≤ a.shape.length → (a.shape.take k).prod ≤ maxSize)
    (hnz : ∀ k, k < a.shape.length → (a.shape.take k).prod ≠ 0)
    (hlen : a.data.length = a.shape.prod * byteSize t) :
    a.asVals t = .ok (reinterpretBytes a.data (byteSize t) a.shape.prod) ∧
    (reinterpretBytes a.data (byteSize t) a.shape.prod).length = a.shape.prod := by
  refine ⟨asVals_ok_of_wf a t hty hmax hnz hlen, ?_⟩
  simp [reinterpretBytes]

/-- Witness for C5: the spec's own example — shape `[2,2]`, dtype
`uint16_t`, little-endian bytes `01 00 02 00 03 00 04 00` yield
`[1, 2, 3, 4]`. -/
theorem c5_witness :
    (⟨[1, 0, 2, 0, 3, 0, 4, 0], [2, 2], "uint16_t"⟩ : KArray).asVals .u16 =
      .ok (reinterpretBytes [1, 0, 2, 0, 3, 0, 4, 0] (byteSize .u16)
        ([2, 2] : List Nat).prod) ∧
    (reinterpretBytes [1, 0, 2, 0, 3, 0, 4, 0] (byteSize .u16)
        ([2, 2] : List Nat).prod).length = ([2, 2] : List Nat).prod ∧
    reinterpretBytes [1, 0, 2, 0, 3, 0, 4, 0] (byteSize .u16)
        ([2, 2] : List Nat).prod = [1, 2, 3, 4] := by
  have h := c5_as_reinterprets_frame ⟨[1, 0, 2, 0, 3, 0, 4, 0], [2, 2], "uint16_t"⟩
    .u16 (by decide) (by decide) (by decide) (by decide)
  exact ⟨h.1, h.2, by decide⟩

/-- C6: a shape whose product of dimensions exceeds the maximum
representable count makes `Array::as` fail with the overflow error
(`SizeOverflow`) before any memory access: the conclusion holds for every
data frame, and the running product is checked against the maximum before
each multiplication, so no modular wraparound happens.  (The matching-dtype
hypothesis is needed because the `check_type_by_string` test precedes the
size computation.) -/
theorem c6_overflow_checked (a : KArray) (t : CType)
    (hty : check_type_by_string t a.dtype = true)
    (hov : maxSize < a.shape.prod) :
    a.asVals t = .error .sizeOverflow := by
  have hsz : a.size = .error .overflow := by
    have := sizeLoop_overflow a.shape 1 Nat.one_pos (by rw [maxSize]; omega)
      (by simpa using hov)
    simpa [KArray.size] using this
  rw [KArray.asVals, if_pos hty, hsz]

/-- Witness for C6: shape `[4294967295, 4294967295, 2]` has product
`2^65 - 2^34 + 2 > 2^64 - 1`; the cast fails with the overflow error
even though the frame is empty. -/
theorem c6_witness :
    check_type_by_string .u8 "uint8_t" = true ∧
    maxSize < ([4294967295, 4294967295, 2] : List Nat).prod ∧
    (⟨[], [4294967295, 4294967295, 2], "uint8_t"⟩ : KArray).asVals .u8 =
      .error .sizeOverflow :=
  ⟨by decide, by decide,
    c6_overflow_checked ⟨[], [4294967295, 4294967295, 2], "uint8_t"⟩ .u8
      (by decide) (by decide)⟩

/-- C7: requesting an element type that does not match the stored dtype tag
makes `Array::as` fail with `std::bad_cast` (`TypeMismatch`), and the
failure is local: the view (a value, unmodified by the call) still yields
the correct data when subsequently cast with the matching type. -/
theorem c7_type_mismatch_is_local (a : KArray) (t tgood : CType)
    (hbad : check_type_by_string t a.dtype = false)
    (hgood : check_type_by_string tgood a.dtype = true)
    (hmax : ∀ k, k ≤ a.shape.length → (a.shape.take k).prod ≤ maxSize)
    (hnz : ∀ k, k < a.shape.length → (a.shape.take k).prod ≠ 0)
    (hlen : a.data.length = a.shape.prod * byteSize tgood) :
    a.asVals t = .error .typeMismatch ∧
    a.asVals tgood = .ok (reinterpretBytes a.data (byteSize tgood) a.shape.prod) := by
  constructor
  · rw [KArray.asVals, hbad]
    simp
  · exact asVals_ok_of_wf a tgood hgood hmax hnz hlen

/-- Witness for C7: casting the `uint16_t` example array to `uint32_t`
fails with the type mismatch, after which the `uint16_t` cast still
succeeds. -/
theorem c7_witness :
    check_type_by_string .u32 "uint16_t" = false ∧
    check_type_by_string .u16 "uint16_t" = true ∧
    (⟨[1, 0, 2, 0, 3, 0, 4, 0], [2, 2], "uint16_t"⟩ : KArray).asVals .u32 =
      .error .typeMismatch ∧
    (⟨[1, 0, 2, 0, 3, 0, 4, 0], [2, 2], "uint16_t"⟩ : KArray).asVals .u16 =
      .ok (reinterpretBytes [1, 0, 2, 0, 3, 0, 4, 0] (byteSize .u16)
        ([2, 2] : List Nat).prod) := by
  have h := c7_type_mismatch_is_local ⟨[1, 0, 2, 0, 3, 0, 4, 0], [2, 2], "uint16_t"⟩
    .u32 .u16 (by decide) (by decide) (by decide) (by decide) (by decide)
  exact ⟨by decide, by decide, h.1, h.2⟩

/-- C10 counterexample: the claim states that *every* shape containing a
zero dimension followed by a further dimension reaches the division by
zero.  The shape `[4294967295, 4294967295, 4294967295, 0, 5]` has a zero
dimension followed by `5`, yet the overflow guard throws at the third
dimension, before the zero is ever reached — the division by zero does not
happen. -/
theorem c10_counterexample :
    (⟨[], [4294967295, 4294967295, 4294967295, 0, 5], ""⟩ : KArray).size =
      .error .overflow ∧
    SizeErr.overflow ≠ SizeErr.divByZero := by
  constructor
  · rfl
  · decide

/-- C10 (amended): `Array::size` divides the maximum by the running product
before each multiplication, so a shape with a zero dimension followed by at
least one further dimension performs a division by zero — unless the
overflow guard already throws at an earlier dimension.  In either case the
computation never returns an element count, and it is free of undefined
behaviour only when every prefix product used as a divisor is nonzero. -/
theorem c10_zero_dim_never_returns (a : KArray)
    (h : ∃ i, i + 1 < a.shape.length ∧ a.shape.getD i 1 = 0) :
    a.size = .error .divByZero ∨ a.size = .error .overflow := by
  rcases h with ⟨i, hi, hz⟩
  cases hres : a.size with
  | ok n =>
    exact absurd hz
      (sizeLoop_ok_no_middle_zero a.shape 1 n (by simpa [KArray.size] using hres) i hi)
  | error e =>
    cases e with
    | overflow => right; rfl
    | divByZero => left; rfl

/-- Witness for C10's amended theorem: shape `[0, 5]` reaches the division
by zero. -/
theorem c10_witness :
    (∃ i, i + 1 < ([0, 5] : List Nat).length ∧ ([0, 5] : List Nat).getD i 1 = 0) ∧
    ((⟨[], [0, 5], ""⟩ : KArray).size = .error .divByZero ∨
      (⟨[], [0, 5], ""⟩ : KArray).size = .error .overflow) :=
  ⟨⟨0, by decide, rfl⟩,
    c10_zero_dim_never_returns ⟨[], [0, 5], ""⟩ ⟨0, by decide, rfl⟩⟩

/-! ## Claims about `Client::next` (C1, C2, C3, C4) -/

/-- C1 counterexample: the claim states that a header with
`content = "ImageData"` makes `next` fail, never storing an entry derived
from the frame.  In the source (line 461) `ImageData` is handled by the
same branch as `array`: with the complete header
`source "A"`, `path "p"`, `shape [2]`, `dtype "uint16"` and a two-byte
data frame, `next` succeeds and stores an `Array` entry at `"p"`. -/
theorem c1_counterexample :
    next [⟨[9], some [("content", .vstr "ImageData"), ("path", .vstr "p"),
        ("shape", .vnats [2]), ("dtype", .vstr "uint16"), ("source", .vstr "A")]⟩,
      ⟨[1, 0], none⟩] =
    .ok [("A", ⟨[[9], [1, 0]], [], [("p", ⟨[1, 0], [2], "uint16_t"⟩)]⟩)] := rfl

/-- C1 (amended): a reply frame whose header's `content` is `"ImageData"`
is processed by the same branch as `"array"` content: `next` does not fail
and stores, at the header's `path`, an `Array` built from the following
frame's bytes, the header's `shape` and its normalized `dtype`.  (Only a
`content` other than `msgpack`/`array`/`ImageData` raises the
"Unknown data content" error.) -/
theorem c1_imagedata_treated_as_array (src path dtype : String)
    (shape : List Nat) (hb db : List Nat) :
    next [⟨hb, some [("content", .vstr "ImageData"), ("path", .vstr path),
        ("shape", .vnats shape), ("dtype", .vstr dtype), ("source", .vstr src)]⟩,
      ⟨db, none⟩] =
    .ok [(src, ⟨[hb, db], [], [(path, ⟨db, shape, normalizeDtype dtype⟩)]⟩)] := by
  simp [next, nextLoop, unpackMap, getStr, getNats, insertKV, insertAll,
    appendMsg, emptyKb, List.lookup]

/-- C2 counterexample: the claim states that two headers with sources
`"A"` and `"B"` in one reply fail with an inconsistent-source error and no
partial result.  The source has no such check: `next` succeeds and returns
both datasets, grouped by source. -/
theorem c2_counterexample :
    next [⟨[1], some [("content", .vstr "msgpack"), ("source", .vstr "A")]⟩,
      ⟨[2], some [("a", .vother 0)]⟩,
      ⟨[3], some [("content", .vstr "msgpack"), ("source", .vstr "B")]⟩,
      ⟨[4], some [("b", .vother 1)]⟩] =
    .ok [("A", ⟨[[1], [2]], [("a", .vother 0)], []⟩),
      ("B", ⟨[[3], [4]], [("b", .vother 1)], []⟩)] := rfl

/-- C2 (amended): a multipart reply containing two msgpack headers whose
`source` fields differ does not fail: each msgpack header starts a new
dataset, the previous one is filed under the previously observed source,
and the result maps each source to its own dataset (the multi-source
grouping policy of §9). -/
theorem c2_multi_source_grouping (s1 s2 : String) (m1 m2 : List (String × MVal))
    (hb1 db1 hb2 db2 : List Nat) (hne : s1 ≠ s2)
    (hm1 : (m1.map Prod.fst).Nodup) (hm2 : (m2.map Prod.fst).Nodup) :
    next [⟨hb1, some [("content", .vstr "msgpack"), ("source", .vstr s1)]⟩,
      ⟨db1, some m1⟩,
      ⟨hb2, some [("content", .vstr "msgpack"), ("source", .vstr s2)]⟩,
      ⟨db2, some m2⟩] =
    .ok [(s1, ⟨[hb1, db1], m1, []⟩), (s2, ⟨[hb2, db2], m2, []⟩)] := by
  have h1 : insertAll ([] : List (String × MVal)) m1 = m1 :=
    insertAll_nil_of_nodup m1 hm1
  have h2 : insertAll ([] : List (String × MVal)) m2 = m2 :=
    insertAll_nil_of_nodup m2 hm2
  have hbe : (s2 == s1) = false := beq_eq_false_iff_ne.mpr (Ne.symm hne)
  simp [next, nextLoop, unpackMap, getStr, insertKV, h1, h2, hbe,
    appendMsg, emptyKb, List.lookup]

/-- Witness for C2's amended theorem: the concrete two-source reply of the
counterexample, derived by instantiating the theorem. -/
theorem c2_witness :
    ("A" : String) ≠ "B" ∧
    next [⟨[1], some [("content", .vstr "msgpack"), ("source", .vstr "A")]⟩,
      ⟨[2], some [("a", .vother 0)]⟩,
      ⟨[3], some [("content", .vstr "msgpack"), ("source", .vstr "B")]⟩,
      ⟨[4], some [("b", .vother 1)]⟩] =
    .ok [("A", ⟨[[1], [2]], [("a", .vother 0)], []⟩),
      ("B", ⟨[[3], [4]], [("b", .vother 1)], []⟩)] :=
  ⟨by decide,
    c2_multi_source_grouping "A" "B" [("a", .vother 0)] [("b", .vother 1)]
      [1] [2] [3] [4] (by decide) (by simp) (by simp)⟩

/-- C3 counterexample: the claim states that the nested mapping under the
key `"metadata"` is hoisted into a metadata mapping and not stored under a
field key `"metadata"`.  The loop at lines 456-457 inserts every key of the
decoded mapping unchanged — `"metadata"` is stored as an ordinary field
(and `kb_data` has no metadata mapping at all). -/
theorem c3_counterexample :
    next [⟨[1], some [("content", .vstr "msgpack"), ("source", .vstr "A")]⟩,
      ⟨[2], some [("metadata", .vmap [("ts", .vother 7)]), ("x", .vother 1)]⟩] =
    .ok [("A", ⟨[[1], [2]],
      [("metadata", .vmap [("ts", .vother 7)]), ("x", .vother 1)], []⟩)] ∧
    List.lookup "metadata"
      [("metadata", MVal.vmap [("ts", MVal.vother 7)]), ("x", MVal.vother 1)] =
      some (.vmap [("ts", .vother 7)]) :=
  ⟨rfl, rfl⟩

/-- C3 (amended): for a well-formed (header, data) msgpack pair, the built
dataset's field set equals the full key set of the decoded nested mapping —
including `"metadata"`, which is stored under its own field key; no hoisting
happens and the dataset has no separate metadata mapping.  (A further
msgpack pair does not extend this dataset: it starts a new one, see C2.) -/
theorem c3_all_keys_become_fields (src : String) (m : List (String × MVal))
    (hb db : List Nat) (hm : (m.map Prod.fst).Nodup) :
    next [⟨hb, some [("content", .vstr "msgpack"), ("source", .vstr src)]⟩,
      ⟨db, some m⟩] =
    .ok [(src, ⟨[hb, db], m, []⟩)] := by
  have h1 : insertAll ([] : List (String × MVal)) m = m :=
    insertAll_nil_of_nodup m hm
  simp [next, nextLoop, unpackMap, getStr, insertKV, h1, appendMsg, emptyKb,
    List.lookup]

/-- Witness for C3's amended theorem: a mapping with keys `"metadata"` and
`"x"` produces a dataset whose fields are exactly those two keys. -/
theorem c3_witness :
    (([("metadata", MVal.vmap [("ts", MVal.vother 7)]), ("x", MVal.vother 1)].map
      Prod.fst).Nodup) ∧
    next [⟨[5], some [("content", .vstr "msgpack"), ("source", .vstr "S")]⟩,
      ⟨[6], some [("metadata", .vmap [("ts", .vother 7)]), ("x", .vother 1)]⟩] =
    .ok [("S", ⟨[[5], [6]],
      [("metadata", .vmap [("ts", .vother 7)]), ("x", .vother 1)], []⟩)] :=
  ⟨by simp,
    c3_all_keys_become_fields "S"
      [("metadata", .vmap [("ts", .vother 7)]), ("x", .vother 1)] [5] [6] (by simp)⟩

/-- C4 counterexample: the claim states the `_t` suffix is appended if and
only if the dtype contains `"int"` *and does not already end with the
suffix*.  Line 468 appends whenever the dtype contains `"int"`: a dtype
that already carries the suffix, such as `"int32_t"`, becomes
`"int32_t_t"` instead of being left unchanged. -/
theorem c4_counterexample :
    next [⟨[9], some [("content", .vstr "array"), ("shape", .vnats [1]),
        ("dtype", .vstr "int32_t"), ("path", .vstr "p"), ("source", .vstr "A")]⟩,
      ⟨[1, 2, 3, 4], none⟩] =
    .ok [("A", ⟨[[9], [1, 2, 3, 4]], [],
      [("p", ⟨[1, 2, 3, 4], [1], "int32_t_t"⟩)]⟩)] ∧
    "int32_t_t" ≠ "int32_t" :=
  ⟨rfl, by decide⟩

/-- C4 (amended): during array-header processing the stored dtype is the
header's dtype with `"_t"` appended if and only if the dtype string
contains `"int"` — unconditionally, even when the string already ends with
`"_t"`; the same rule is applied to every array frame. -/
theorem c4_dtype_suffix_iff_contains_int (src path dtype : String)
    (shape : List Nat) (hb db : List Nat) :
    next [⟨hb, some [("content", .vstr "array"), ("shape", .vnats shape),
        ("dtype", .vstr dtype), ("path", .vstr path), ("source", .vstr src)]⟩,
      ⟨db, none⟩] =
    .ok [(src, ⟨[hb, db], [],
      [(path, ⟨db, shape,
        if hasSubstr "int".data dtype.data then dtype ++ "_t" else dtype⟩)]⟩)] := by
  simp [next, nextLoop, unpackMap, getStr, getNats, insertKV, insertAll,
    appendMsg, emptyKb, List.lookup, normalizeDtype]

/-! ## Claims about the Structure Printer (C8, C9) -/

/-- C8: the claim (and the spec) require balanced brackets for every
nesting, including empty arrays, and the comment in `end_array` documents
the intent to "remove the last ','".  For an empty array no comma was ever
written: `start_array` appends `"["`, no items follow, and `end_array`
erases the character just written — the opening bracket itself — before
appending `"]"`.  The rendering of `[]` is the single unbalanced character
`"]"`. -/
theorem c8_empty_array_unbalanced :
    render (.varr .nil) = .ok [']'] := rfl

/-- C9 counterexample: the claim states the rendering of a binary blob
depends only on its position — `(bin)` in any non-key position.  A blob
that is an *array element* (a non-key position) inside a map key is
rendered raw, because `is_key_` is still set while the key's sub-items are
visited: the map `\x7b [bin "x"]: nil \x7d` renders as `"\n[x]: null"`,
not as the `"\n[(bin)]: null"` the claim mandates. -/
theorem c9_counterexample :
    render (.vmap (.cons (.varr (.cons (.vbin ['x']) .nil)) .vnil .nil)) =
      .ok ['\n', '[', 'x', ']', ':', ' ', 'n', 'u', 'l', 'l'] ∧
    (['\n', '[', 'x', ']', ':', ' ', 'n', 'u', 'l', 'l'] : List Char) ≠
      ['\n', '[', '(', 'b', 'i', 'n', ')', ']', ':', ' ', 'n', 'u', 'l', 'l'] :=
  ⟨rfl, by decide⟩

/-- C9 (amended): a blob's rendering follows the visitor's `is_key_` flag,
which is set for the whole traversal of a map key (including sub-items of a
composite key).  In particular: a blob that is itself a map key renders as
its raw text, a blob in map-value position renders as the literal `(bin)`,
and a blob outside any map renders as `(bin)`. -/
theorem c9_bin_rendering_by_key_flag (s k : List Char) :
    render (.vmap (.cons (.vbin s) .vnil .nil)) =
      .ok ('\n' :: (s ++ [':', ' ', 'n', 'u', 'l', 'l'])) ∧
    render (.vmap (.cons (.vstr k) (.vbin s) .nil)) =
      .ok ('\n' :: '"' :: (k ++ ['"', ':', ' ', '(', 'b', 'i', 'n', ')'])) ∧
    render (.vbin s) = .ok ['(', 'b', 'i', 'n', ')'] := by
  refine ⟨?_, ?_, ?_⟩
  · simp only [render, visitV, visitMap, emit, setKey, indentChars]
    simp [eraseLast]
    rw [show ('\n' :: (s ++ [':', ' ', 'n', 'u', 'l', 'l', ','])) =
      ('\n' :: (s ++ [':', ' ', 'n', 'u', 'l', 'l'])) ++ [','] by simp]
    rw [List.dropLast_concat]
  · simp only [render, visitV, visitMap, emit, setKey, indentChars]
    simp [eraseLast]
    rw [show ('"' :: (k ++ ['"', ':', ' ', '(', 'b', 'i', 'n', ')', ','])) =
      ('"' :: (k ++ ['"', ':', ' ', '(', 'b', 'i', 'n', ')'])) ++ [','] by simp]
    rw [List.dropLast_concat]
  · simp [render, visitV, emit]

end KaraboBridge
